import Mathlib

/-!
Shallow embedding of the request-pacing and streaming-ingestion runtime of
the coinbasepro client library, together with theorems checking its
natural-language specification.

Embedded modules:
* `coinbasepro/token_bucket.py` — `TokenBucket` (lazy refill token bucket);
* `coinbasepro/rate_limiter.py` — the `rate_limit` sleep computation;
* `coinbasepro/public_client.py` — `_check_errors_and_raise` and
  `_send_paginated_message` (cursor pagination);
* `coinbasepro/websocket_client.py` — `start`, `_listen` and the default
  callbacks.

Python `float` time values are modelled as rationals, Python `int` as `ℤ`/`ℕ`.
-/

/-- Truncation toward zero, the behaviour of Python `int()` on a rational. -/
def truncQ (q : ℚ) : ℤ := if 0 ≤ q then ⌊q⌋ else ⌈q⌉

/-- State of `TokenBucket` (token_bucket.py lines 22-26): `max_amount`,
`refill_period` (seconds), `refill_amount`, mutable `value` and
`last_update` (monotonic timestamp). -/
structure TokenBucket where
  max_amount : ℤ
  refill_period : ℚ
  refill_amount : ℤ
  value : ℤ
  last_update : ℚ
deriving DecidableEq, Repr

/-- Model of `TokenBucket.__init__` (lines 13-27): fields are stored, `value`/`last_update`
are zeroed and then `reset()` runs, leaving `value = max_amount` and
`last_update = now`. The clock reading is passed explicitly. -/
def TokenBucket.create (max_amount : ℤ) (refill_period : ℚ) (refill_amount : ℤ)
    (now : ℚ) : TokenBucket :=
  { max_amount := max_amount, refill_period := refill_period,
    refill_amount := refill_amount, value := max_amount, last_update := now }

/-- Model of `TokenBucket._refill_count` (lines 29-31):
`int((time.monotonic() - self.last_update) / self.refill_period)`. -/
def TokenBucket.refill_count (b : TokenBucket) (now : ℚ) : ℤ :=
  truncQ ((now - b.last_update) / b.refill_period)

/-- Model of `TokenBucket.time_to_next_token` (lines 33-40). -/
def TokenBucket.time_to_next_token (b : TokenBucket) (now : ℚ) : ℚ :=
  b.last_update + b.refill_period - now - (b.refill_count now : ℚ) * b.refill_period

/-- Model of `TokenBucket.reset` (lines 42-45). -/
def TokenBucket.reset (b : TokenBucket) (now : ℚ) : TokenBucket :=
  { b with value := b.max_amount, last_update := now }

/-- Model of `TokenBucket.get` (lines 47-51):
`min(self.max_amount, self.value + self._refill_count() * self.refill_amount)`. -/
def TokenBucket.get (b : TokenBucket) (now : ℚ) : ℤ :=
  min b.max_amount (b.value + b.refill_count now * b.refill_amount)

/-- Model of `TokenBucket.reduce` (lines 53-68): refill by whole elapsed periods,
reset when at/above capacity, then spend `tokens` if possible. Returns the
Python return value paired with the post-state. -/
def TokenBucket.reduce (b : TokenBucket) (tokens : ℤ) (now : ℚ) : Bool × TokenBucket :=
  let k := b.refill_count now
  let b1 : TokenBucket :=
    { b with value := b.value + k * b.refill_amount,
             last_update := b.last_update + (k : ℚ) * b.refill_period }
  let b2 := if b1.max_amount ≤ b1.value then b1.reset now else b1
  if b2.value < tokens then (false, b2)
  else (true, { b2 with value := b2.value - tokens })

/-- Specification-side description of `reduce(n)`, written from the spec's
words (§4.1 `spend(n)` steps 1-4): add elapsed-whole-period refills to the
count and advance `lastSync` by whole periods only; if the refilled count is
at least capacity, reset the count to capacity and `lastSync` to now; then
fail leaving the count unchanged when `n` exceeds the refilled count, and
otherwise decrement by exactly `n`. -/
def TokenBucket.reduceSpec (b : TokenBucket) (n : ℤ) (now : ℚ) : Bool × TokenBucket :=
  let k := truncQ ((now - b.last_update) / b.refill_period)
  let refilled := b.value + k * b.refill_amount
  let v2 := if b.max_amount ≤ refilled then b.max_amount else refilled
  let l2 := if b.max_amount ≤ refilled then now
            else b.last_update + (k : ℚ) * b.refill_period
  if v2 < n then (false, { b with value := v2, last_update := l2 })
  else (true, { b with value := v2 - n, last_update := l2 })

/-- Exception taxonomy raised by `_check_errors_and_raise`
(exceptions.py; public_client.py lines 482-496). -/
inductive ApiError where
  | badRequest
  | invalidAPIKey
  | invalidAuthorization
  | rateLimitError
  | coinbaseAPIError
deriving DecidableEq, Repr

/-- Model of `PublicClient._check_errors_and_raise` (public_client.py lines 482-496):
for `400 <= status < 600` raise the matching exception, otherwise return
silently. `none` models "no exception raised". -/
def check_errors (status : ℕ) : Option ApiError :=
  if 400 ≤ status ∧ status < 600 then
    some (if status = 400 then ApiError.badRequest
      else if status = 401 then ApiError.invalidAPIKey
      else if status = 403 then ApiError.invalidAuthorization
      else if status = 429 then ApiError.rateLimitError
      else ApiError.coinbaseAPIError)
  else none

/-- Request parameters relevant to `_send_paginated_message`: the `before`
and `after` entries of the `params` dict (`none` = key absent). -/
structure Params where
  before : Option String
  after : Option String
deriving DecidableEq, Repr

/-- One HTTP response to a page request: its status code, the parsed JSON
list of items, and the `cb-after` response header (`none` = header absent). -/
structure PageResponse where
  status : ℕ
  items : List String
  cbAfter : Option String
deriving DecidableEq, Repr

/-- Python truthiness of `r.headers.get("cb-after")`: an absent header or an
empty string is falsy. -/
def cursorTruthy : Option String → Bool
  | none => false
  | some s => !s.isEmpty

/-- Observable events of one `_send_paginated_message` run: a rate-limiter
acquisition (`rate_limiter.rate_limit()`), an issued page request with its
`before`/`after` params, an item yielded to the consumer, or an exception
propagating out of `_check_errors_and_raise`. -/
inductive PEvent where
  | acquire
  | request (before after : Option String)
  | yieldItem (s : String)
  | raiseErr (e : ApiError)
deriving DecidableEq, Repr

/-- Model of `PublicClient._send_paginated_message` (public_client.py lines 574-591)
run against a scripted server that answers the k-th request with the k-th
`PageResponse`; the run's observable events in order. Each loop iteration:
acquire a credit when a rate limiter is present, issue the GET with the
current params, raise on an error status, yield every item of the page,
then break if the `cb-after` header is falsy or the params contain `before`,
else set `params["after"]` to the header value and continue. An exhausted
script ends the trace. -/
def send_paginated (rl : Bool) : List PageResponse → Params → List PEvent
  | [], _ => []
  | r :: rest, p =>
    (if rl then [PEvent.acquire] else []) ++
    PEvent.request p.before p.after ::
    (match check_errors r.status with
     | some e => [PEvent.raiseErr e]
     | none =>
       r.items.map PEvent.yieldItem ++
       (if !cursorTruthy r.cbAfter || p.before.isSome then []
        else send_paginated rl rest { p with after := r.cbAfter }))

/-- Well-formed pagination trace: a possibly empty sequence of page blocks,
each consisting of exactly one `acquire`, then one `request`, then that
page's yielded items; the last block may instead end in a raised error after
its `acquire`/`request` pair. -/
inductive PagedShape : List PEvent → Prop
  | nil : PagedShape []
  | fail (b a : Option String) (e : ApiError) :
      PagedShape [PEvent.acquire, PEvent.request b a, PEvent.raiseErr e]
  | page (b a : Option String) (items : List String) (rest : List PEvent) :
      PagedShape rest →
      PagedShape (PEvent.acquire :: PEvent.request b a ::
        (items.map PEvent.yieldItem ++ rest))

/-- Outcome of one WebsocketClient.listen-loop iteration's transport interaction: a received
message, or an exception raised during ping/receive. -/
inductive RecvOutcome where
  | msg (s : String)
  | err
deriving DecidableEq, Repr

/-- Observable state of a `WebsocketClient` during `_listen`: the `stop`
flag, the number of `WebsocketClient.on_error` invocations and the messages passed to
`WebsocketClient.on_message`, in order. -/
structure ListenState where
  stop : Bool
  errors : ℕ
  received : List String
deriving DecidableEq, Repr

/-- Default `WebsocketClient.on_error` (websocket_client.py lines 171-175):
logs and sets `self.stop = True`. -/
def WebsocketClient.on_error (s : ListenState) : ListenState :=
  { s with errors := s.errors + 1, stop := true }

/-- Default `WebsocketClient.on_message` (lines 164-169): logs/prints the
message. -/
def WebsocketClient.on_message (m : String) (s : ListenState) : ListenState :=
  { s with received := s.received ++ [m] }

/-- Model of `WebsocketClient._listen` (lines 113-128) run against a scripted
transport: while `not self.stop`, one iteration consumes the next outcome;
an exception is routed to `WebsocketClient.on_error` (both `except` arms call it) and skips
the `else: self.on_message(msg)` clause; a received message reaches
`WebsocketClient.on_message`. The trace ends when the script is exhausted. -/
def WebsocketClient.listen (outs : List RecvOutcome) (s : ListenState) : ListenState :=
  match outs with
  | [] => s
  | o :: rest =>
    if s.stop then s
    else
      match o with
      | RecvOutcome.msg m => WebsocketClient.listen rest (WebsocketClient.on_message m s)
      | RecvOutcome.err => WebsocketClient.listen rest (WebsocketClient.on_error s)

/-- Ping decision of one `_listen` iteration (lines 116-117): the local
`start_t` is (re)assigned `0` at the top of every iteration, and a ping is
sent when `time.time() - start_t >= self.keepalive_timer`; `now` is the
`time.time()` reading. -/
def WebsocketClient.listen_ping_check (now keepalive_timer : ℚ) : Bool :=
  let start_t : ℚ := 0
  decide (keepalive_timer ≤ now - start_t)

/-- Observable state of a `WebsocketClient` session for `start()`: the
`stop` flag and how many background threads have been spawned via
`Thread(target=_go).start()`. -/
structure Session where
  stop : Bool
  threadsStarted : ℕ
deriving DecidableEq, Repr

/-- Model of `WebsocketClient.start` (websocket_client.py lines 65-75): sets
`self.stop = False`, calls `on_open` (logging only) and unconditionally
spawns and starts a new background thread. -/
def WebsocketClient.start (s : Session) : Session :=
  { stop := false, threadsStarted := s.threadsStarted + 1 }


/-! Helper lemmas about `truncQ`, `refill_count` and `reduce`. -/

theorem truncQ_eq_floor {q : ℚ} (h : 0 ≤ q) : truncQ q = ⌊q⌋ := if_pos h

theorem truncQ_nonneg {q : ℚ} (h : 0 ≤ q) : 0 ≤ truncQ q := by
  rw [truncQ_eq_floor h]
  exact Int.floor_nonneg.mpr h

theorem refill_count_nonneg (b : TokenBucket) (now : ℚ)
    (hP : 0 < b.refill_period) (ht : b.last_update ≤ now) :
    0 ≤ b.refill_count now :=
  truncQ_nonneg (div_nonneg (by linarith) hP.le)

theorem reduce_eq_reduceSpec (b : TokenBucket) (n : ℤ) (now : ℚ) :
    b.reduce n now = b.reduceSpec n now := by
  unfold TokenBucket.reduce TokenBucket.reduceSpec TokenBucket.reset
    TokenBucket.refill_count
  by_cases h1 : b.max_amount
      ≤ b.value + truncQ ((now - b.last_update) / b.refill_period) * b.refill_amount <;>
    simp [h1]

theorem reduce_fields (b : TokenBucket) (n : ℤ) (now : ℚ) :
    (b.reduce n now).2.refill_period = b.refill_period ∧
    (b.reduce n now).2.max_amount = b.max_amount ∧
    (b.reduce n now).2.refill_amount = b.refill_amount ∧
    (b.reduce n now).2.last_update =
      (if b.max_amount ≤ b.value + b.refill_count now * b.refill_amount then now
       else b.last_update + (b.refill_count now : ℚ) * b.refill_period) := by
  rw [reduce_eq_reduceSpec]
  unfold TokenBucket.reduceSpec TokenBucket.refill_count
  dsimp only
  refine ⟨?_, ?_, ?_, ?_⟩ <;> (split <;> split <;> rfl)

theorem time_to_next_token_bounds (b : TokenBucket) (now : ℚ)
    (hP : 0 < b.refill_period) (h1 : b.last_update ≤ now)
    (h2 : now < b.last_update + b.refill_period) :
    0 < b.time_to_next_token now ∧ b.time_to_next_token now ≤ b.refill_period := by
  have hq0 : (0 : ℚ) ≤ (now - b.last_update) / b.refill_period :=
    div_nonneg (by linarith) hP.le
  have hq1 : (now - b.last_update) / b.refill_period < 1 := by
    rw [div_lt_one hP]; linarith
  have hk : b.refill_count now = 0 := by
    unfold TokenBucket.refill_count
    rw [truncQ_eq_floor hq0]
    exact Int.floor_eq_zero_iff.mpr ⟨hq0, hq1⟩
  unfold TokenBucket.time_to_next_token
  rw [hk]
  push_cast
  constructor <;> linarith

theorem reduce_last_update_bounds (b : TokenBucket) (n : ℤ) (now : ℚ)
    (hP : 0 < b.refill_period) (ht : b.last_update ≤ now) :
    (b.reduce n now).2.last_update ≤ now ∧
      now < (b.reduce n now).2.last_update + b.refill_period := by
  obtain ⟨-, -, -, hl⟩ := reduce_fields b n now
  rw [hl]
  have hq0 : (0 : ℚ) ≤ (now - b.last_update) / b.refill_period :=
    div_nonneg (by linarith) hP.le
  have hkf : b.refill_count now = ⌊(now - b.last_update) / b.refill_period⌋ :=
    truncQ_eq_floor hq0
  have hmul : (now - b.last_update) / b.refill_period * b.refill_period
      = now - b.last_update := div_mul_cancel₀ _ hP.ne'
  have hlow : (b.refill_count now : ℚ) * b.refill_period ≤ now - b.last_update := by
    rw [hkf]
    calc (⌊(now - b.last_update) / b.refill_period⌋ : ℚ) * b.refill_period
        ≤ (now - b.last_update) / b.refill_period * b.refill_period :=
          mul_le_mul_of_nonneg_right (Int.floor_le _) hP.le
      _ = now - b.last_update := hmul
  have hhigh : now - b.last_update
      < (b.refill_count now : ℚ) * b.refill_period + b.refill_period := by
    rw [hkf]
    calc now - b.last_update
        = (now - b.last_update) / b.refill_period * b.refill_period := hmul.symm
      _ < ((⌊(now - b.last_update) / b.refill_period⌋ : ℚ) + 1) * b.refill_period :=
          mul_lt_mul_of_pos_right (Int.lt_floor_add_one _) hP
      _ = (⌊(now - b.last_update) / b.refill_period⌋ : ℚ) * b.refill_period
            + b.refill_period := by ring
  split
  · constructor <;> linarith
  · constructor <;> linarith

/-- C1: for every `TokenBucket` and every `n ≥ 0`, `reduce(n)` first adds
elapsed-whole-period refills to the count and advances `last_update` by whole
periods only; if the refilled count is at least `max_amount` it resets the
count to `max_amount` and `last_update` to `now`; then it returns `False` and
leaves the count unchanged beyond that refill/reset whenever `n` exceeds the
refilled count, and otherwise decrements the count by exactly `n` and returns
`True` — i.e. `reduce` agrees with the spec-side `reduceSpec`. -/
theorem c1_reduce_spec (b : TokenBucket) (n : ℤ) (now : ℚ) (hn : 0 ≤ n) :
    b.reduce n now = b.reduceSpec n now :=
  reduce_eq_reduceSpec b n now

/-- Witness for C1 at a concrete bucket: capacity 4, one refill of 1 per
period, count 1, 1.5 periods elapsed, spending 2. -/
theorem c1_reduce_spec_witness :
    (0 : ℤ) ≤ 2 ∧
      TokenBucket.reduce ⟨4, 1, 1, 1, 0⟩ 2 (3 / 2)
        = TokenBucket.reduceSpec ⟨4, 1, 1, 1, 0⟩ 2 (3 / 2) :=
  ⟨by norm_num, c1_reduce_spec ⟨4, 1, 1, 1, 0⟩ 2 (3 / 2) (by norm_num)⟩

/-- C6: if `0 ≤ value ≤ max_amount` holds before an access then the invariant
is restored at that access: it holds of the value returned by `get()` and of
the stored count after any `reduce(n)` with `n ≥ 0`. -/
theorem c6_bucket_invariant (b : TokenBucket) (n : ℤ) (now : ℚ)
    (hv0 : 0 ≤ b.value) (hv1 : b.value ≤ b.max_amount)
    (hP : 0 < b.refill_period) (hR : 0 ≤ b.refill_amount)
    (ht : b.last_update ≤ now) (hn : 0 ≤ n) :
    (0 ≤ b.get now ∧ b.get now ≤ b.max_amount) ∧
    (0 ≤ ((b.reduce n now).2).value ∧ ((b.reduce n now).2).value ≤ b.max_amount) := by
  have hk : 0 ≤ truncQ ((now - b.last_update) / b.refill_period) :=
    truncQ_nonneg (div_nonneg (by linarith) hP.le)
  have hkR : 0 ≤ truncQ ((now - b.last_update) / b.refill_period) * b.refill_amount :=
    mul_nonneg hk hR
  constructor
  · unfold TokenBucket.get TokenBucket.refill_count
    exact ⟨le_min (hv0.trans hv1) (by linarith), min_le_left _ _⟩
  · rw [reduce_eq_reduceSpec]
    unfold TokenBucket.reduceSpec
    dsimp only
    split <;> split <;> dsimp only <;> constructor <;> linarith

/-- Witness for C6 at a concrete bucket: capacity 4, refill 1 per period,
count 2, half a period elapsed, spending 1. -/
theorem c6_bucket_invariant_witness :
    (0 ≤ TokenBucket.get ⟨4, 1, 1, 2, 0⟩ (1 / 2) ∧
      TokenBucket.get ⟨4, 1, 1, 2, 0⟩ (1 / 2) ≤ 4) ∧
    (0 ≤ ((TokenBucket.reduce ⟨4, 1, 1, 2, 0⟩ 1 (1 / 2)).2).value ∧
      ((TokenBucket.reduce ⟨4, 1, 1, 2, 0⟩ 1 (1 / 2)).2).value ≤ 4) :=
  c6_bucket_invariant ⟨4, 1, 1, 2, 0⟩ 1 (1 / 2) (by norm_num) (by norm_num)
    (by norm_num) (by norm_num) (by norm_num) (by norm_num)

/-- C9 counterexample: a freshly constructed bucket with capacity `C = 2`,
refill `R = 1` per period `P = 1` starts full, so after `k = 1` full period
with no spending `get()` returns `2`, not `min(C, k·R) = 1`. -/
theorem c9_counterexample :
    (TokenBucket.create 2 1 1 0).get 1 = 2 ∧ min (2 : ℤ) (1 * 1) = 1 ∧ (2 : ℤ) ≠ 1 := by
  refine ⟨?_, by norm_num, by norm_num⟩
  norm_num [TokenBucket.get, TokenBucket.create, TokenBucket.refill_count, truncQ]

/-- C9 amended: for a bucket with capacity `C`, refill amount `R` per period
`P > 0` whose count is `0` at `last_update` (a fully drained bucket), after
`k` full periods with no spending `get()` returns `min(C, k·R)`. -/
theorem c9_refill_from_empty (C R : ℤ) (P t0 : ℚ) (k : ℕ) (hP : 0 < P) :
    (TokenBucket.mk C P R 0 t0).get (t0 + (k : ℚ) * P) = min C ((k : ℤ) * R) := by
  unfold TokenBucket.get TokenBucket.refill_count
  dsimp only
  have h1 : (t0 + (k : ℚ) * P - t0) / P = (k : ℚ) := by
    field_simp
  rw [h1, truncQ_eq_floor (by positivity)]
  norm_num

/-- Witness for C9 amended: a drained bucket of capacity 2, refill 1 per
period, after 3 full periods holds `min 2 3 = 2`. -/
theorem c9_refill_from_empty_witness :
    (TokenBucket.mk 2 1 1 0 0).get (0 + ((3 : ℕ) : ℚ) * 1) = min 2 ((3 : ℤ) * 1) :=
  c9_refill_from_empty 2 1 1 0 3 (by norm_num)

/-- C10 counterexample: with `refill_period = 1 > 0` and
`now = 2 ≥ last_update = 0`, `time_to_next_token()` returns `-3`, which is
not in `(0, refill_period]` — the claim fails once a whole period has
elapsed since `last_update`. -/
theorem c10_counterexample :
    (0 : ℚ) < (TokenBucket.mk 5 1 1 0 0).refill_period ∧
    (TokenBucket.mk 5 1 1 0 0).last_update ≤ 2 ∧
    (TokenBucket.mk 5 1 1 0 0).time_to_next_token 2 = -3 ∧
    ¬ (0 : ℚ) < -3 := by
  refine ⟨by norm_num, by norm_num, ?_, by norm_num⟩
  norm_num [TokenBucket.time_to_next_token, TokenBucket.refill_count, truncQ]

/-- C10 amended: with `refill_period > 0` and `last_update ≤ now`,
`time_to_next_token()` returns `t` with `0 < t ≤ refill_period` provided
less than one whole period has elapsed since `last_update`; and the sleep
performed inside `RateLimiter.rate_limit`, which calls `time_to_next_token`
immediately after `reduce` (which fast-forwards `last_update` to within one
period of `now`), always receives a positive argument bounded by one refill
period. -/
theorem c10_sleep_bounds (b : TokenBucket) (n : ℤ) (now : ℚ)
    (hP : 0 < b.refill_period) (ht : b.last_update ≤ now) :
    (now < b.last_update + b.refill_period →
      0 < b.time_to_next_token now ∧ b.time_to_next_token now ≤ b.refill_period) ∧
    (0 < ((b.reduce n now).2).time_to_next_token now ∧
      ((b.reduce n now).2).time_to_next_token now ≤ b.refill_period) := by
  refine ⟨time_to_next_token_bounds b now hP ht, ?_⟩
  obtain ⟨hb1, hb2⟩ := reduce_last_update_bounds b n now hP ht
  obtain ⟨hfp, -, -, -⟩ := reduce_fields b n now
  have h := time_to_next_token_bounds (b.reduce n now).2 now (by rw [hfp]; exact hP)
    hb1 (by rw [hfp]; exact hb2)
  rwa [hfp] at h

/-- Witness for C10 amended: capacity 5, period 1, count 0, half a period
elapsed, after attempting to spend 1. -/
theorem c10_sleep_bounds_witness :
    (0 < TokenBucket.time_to_next_token ⟨5, 1, 1, 0, 0⟩ (1 / 2) ∧
      TokenBucket.time_to_next_token ⟨5, 1, 1, 0, 0⟩ (1 / 2) ≤ 1) ∧
    (0 < ((TokenBucket.reduce ⟨5, 1, 1, 0, 0⟩ 1 (1 / 2)).2).time_to_next_token (1 / 2) ∧
      ((TokenBucket.reduce ⟨5, 1, 1, 0, 0⟩ 1 (1 / 2)).2).time_to_next_token (1 / 2) ≤ 1) :=
  ⟨(c10_sleep_bounds ⟨5, 1, 1, 0, 0⟩ 1 (1 / 2) (by norm_num) (by norm_num)).1 (by norm_num),
    (c10_sleep_bounds ⟨5, 1, 1, 0, 0⟩ 1 (1 / 2) (by norm_num) (by norm_num)).2⟩

/-- C5 counterexample: status 301 is not a 2xx status, yet
`_check_errors_and_raise` raises nothing for it, so "any other non-2xx
status raises the catch-all `CoinbaseAPIError`" fails. -/
theorem c5_counterexample :
    check_errors 301 = none ∧ ¬ (200 ≤ 301 ∧ 301 < 300) := by decide

/-- C5 amended: status 400 raises `BadRequest`, 401 `InvalidAPIKey`,
403 `InvalidAuthorization`, 429 `RateLimitError`, any other status in
`[400, 600)` raises the catch-all `CoinbaseAPIError`, and no exception is
raised for any status below 400 (2xx included) or at/above 600. -/
theorem c5_status_taxonomy :
    check_errors 400 = some ApiError.badRequest ∧
    check_errors 401 = some ApiError.invalidAPIKey ∧
    check_errors 403 = some ApiError.invalidAuthorization ∧
    check_errors 429 = some ApiError.rateLimitError ∧
    (∀ s : ℕ, 400 ≤ s → s < 600 → s ≠ 400 → s ≠ 401 → s ≠ 403 → s ≠ 429 →
      check_errors s = some ApiError.coinbaseAPIError) ∧
    (∀ s : ℕ, s < 400 ∨ 600 ≤ s → check_errors s = none) := by
  refine ⟨by decide, by decide, by decide, by decide, ?_, ?_⟩
  · intro s h1 h2 h3 h4 h5 h6
    unfold check_errors
    rw [if_pos ⟨h1, h2⟩, if_neg h3, if_neg h4, if_neg h5, if_neg h6]
  · intro s hs
    unfold check_errors
    rw [if_neg (by omega)]

/-- Witness for C5 amended at statuses 500 (catch-all) and 204 (silent). -/
theorem c5_status_taxonomy_witness :
    check_errors 500 = some ApiError.coinbaseAPIError ∧ check_errors 204 = none :=
  ⟨c5_status_taxonomy.2.2.2.2.1 500 (by norm_num) (by norm_num) (by norm_num)
      (by norm_num) (by norm_num) (by norm_num),
    c5_status_taxonomy.2.2.2.2.2 204 (Or.inl (by norm_num))⟩

/-- C2: on a successful page, iteration stops exactly when the response's
`cb-after` cursor header is falsy or the request parameters include
`before`; a fetch with `before` set yields only that first page's items even
when the response carries a cursor, and otherwise `after` is set to the
returned cursor and the loop continues on the remaining script. -/
theorem c2_pagination_stop (rl : Bool) (r : PageResponse) (rest : List PageResponse)
    (p : Params) (hok : check_errors r.status = none) :
    (p.before.isSome = true →
      send_paginated rl (r :: rest) p =
        (if rl then [PEvent.acquire] else []) ++
          PEvent.request p.before p.after :: r.items.map PEvent.yieldItem) ∧
    (cursorTruthy r.cbAfter = false →
      send_paginated rl (r :: rest) p =
        (if rl then [PEvent.acquire] else []) ++
          PEvent.request p.before p.after :: r.items.map PEvent.yieldItem) ∧
    (p.before = none → cursorTruthy r.cbAfter = true →
      send_paginated rl (r :: rest) p =
        ((if rl then [PEvent.acquire] else []) ++
          PEvent.request p.before p.after :: r.items.map PEvent.yieldItem) ++
          send_paginated rl rest { before := none, after := r.cbAfter }) := by
  refine ⟨?_, ?_, ?_⟩
  · intro hb
    simp [send_paginated, hok, hb]
  · intro hc
    simp [send_paginated, hok, hc]
  · intro hb hc
    simp [send_paginated, hok, hb, hc]

/-- Witness for C2: a request with `before` set stops after its first page
although the response carries cursor `"X"`. -/
theorem c2_pagination_stop_witness :
    send_paginated true [⟨200, ["a"], some "X"⟩] ⟨some "b0", none⟩ =
      [PEvent.acquire, PEvent.request (some "b0") none, PEvent.yieldItem "a"] := by
  have h := (c2_pagination_stop true ⟨200, ["a"], some "X"⟩ [] ⟨some "b0", none⟩
    (by decide)).1 rfl
  simpa using h

/-- C8: every trace of a rate-limited paginated fetch is a sequence of page
blocks — exactly one `acquire`, then the page request, then that page's
yielded items (so all of page k is yielded before the request of page k+1,
and an empty page still consumes one credit); and a page with zero items
and no cursor ends the trace cleanly after its `acquire`/`request` pair,
with no error event. -/
theorem c8_paginated_trace_shape :
    (∀ (script : List PageResponse) (p : Params),
      PagedShape (send_paginated true script p)) ∧
    (∀ (rest : List PageResponse) (p : Params),
      send_paginated true (⟨200, [], none⟩ :: rest) p =
        [PEvent.acquire, PEvent.request p.before p.after]) := by
  constructor
  · intro script
    induction script with
    | nil => intro p; exact PagedShape.nil
    | cons r rest ih =>
      intro p
      cases hck : check_errors r.status with
      | some e =>
        have : send_paginated true (r :: rest) p =
            [PEvent.acquire, PEvent.request p.before p.after, PEvent.raiseErr e] := by
          simp [send_paginated, hck]
        rw [this]
        exact PagedShape.fail p.before p.after e
      | none =>
        by_cases hstop : (!cursorTruthy r.cbAfter || p.before.isSome) = true
        · have : send_paginated true (r :: rest) p =
              PEvent.acquire :: PEvent.request p.before p.after ::
                (r.items.map PEvent.yieldItem ++ []) := by
            simp [send_paginated, hck, hstop]
          rw [this]
          exact PagedShape.page p.before p.after r.items [] PagedShape.nil
        · have : send_paginated true (r :: rest) p =
              PEvent.acquire :: PEvent.request p.before p.after ::
                (r.items.map PEvent.yieldItem ++
                  send_paginated true rest { p with after := r.cbAfter }) := by
            simp [send_paginated, hck, hstop]
          rw [this]
          exact PagedShape.page p.before p.after r.items _ (ih _)
  · intro rest p
    simp [send_paginated, check_errors, cursorTruthy]

/-- Helper: once the `stop` flag is set, the WebsocketClient.listen loop performs no further
iteration. -/
theorem listen_stopped (outs : List RecvOutcome) (s : ListenState)
    (h : s.stop = true) : WebsocketClient.listen outs s = s := by
  cases outs with
  | nil => rfl
  | cons o rest => simp [WebsocketClient.listen, h]

/-- C3: from a non-stopped state, a WebsocketClient.listen script of successful receives
followed by an error ends the session with exactly one error-callback
invocation, the `stop` flag set, the message callback invoked only for the
receives preceding the error (not for the erroring iteration), and no
further iterations consumed after the error. -/
theorem c3_listen_error_stop (pre : List String) (rest : List RecvOutcome)
    (s : ListenState) (h : s.stop = false) :
    WebsocketClient.listen (pre.map RecvOutcome.msg ++ RecvOutcome.err :: rest) s =
      { stop := true, errors := s.errors + 1, received := s.received ++ pre } := by
  induction pre generalizing s with
  | nil =>
    simp only [List.map_nil, List.nil_append]
    rw [show WebsocketClient.listen (RecvOutcome.err :: rest) s = WebsocketClient.listen rest (WebsocketClient.on_error s) by
      simp [WebsocketClient.listen, h]]
    rw [listen_stopped rest (WebsocketClient.on_error s) rfl]
    simp [WebsocketClient.on_error]
  | cons m ms ih =>
    simp only [List.map_cons, List.cons_append]
    rw [show WebsocketClient.listen (RecvOutcome.msg m ::
        (ms.map RecvOutcome.msg ++ RecvOutcome.err :: rest)) s
        = WebsocketClient.listen (ms.map RecvOutcome.msg ++ RecvOutcome.err :: rest)
            (WebsocketClient.on_message m s) by
      simp [WebsocketClient.listen, h]]
    rw [ih (WebsocketClient.on_message m s) (by simpa [WebsocketClient.on_message] using h)]
    simp [WebsocketClient.on_message]

/-- Witness for C3: two messages, then an error, then one more scripted
outcome that is never consumed. -/
theorem c3_listen_error_stop_witness :
    WebsocketClient.listen [RecvOutcome.msg "m1", RecvOutcome.msg "m2", RecvOutcome.err,
        RecvOutcome.msg "x"] ⟨false, 0, []⟩ =
      ⟨true, 1, ["m1", "m2"]⟩ := by
  have h := c3_listen_error_stop ["m1", "m2"] [RecvOutcome.msg "x"]
    ⟨false, 0, []⟩ rfl
  simpa using h

/-- C4 (code bug): with `keepalive_timer = 30`, an iteration at wall-clock
time 101 whose previous ping went out at time 100 still sends a ping —
`start_t` is re-initialized to 0 inside the loop, so the check compares
against 0, not against the last ping time — although only 1 second
(less than the keepalive interval) has elapsed since the last ping. -/
theorem c4_ping_every_iteration :
    WebsocketClient.listen_ping_check 101 30 = true ∧ ¬ ((30 : ℚ) ≤ 101 - 100) := by
  constructor
  · norm_num [WebsocketClient.listen_ping_check]
  · norm_num

/-- C7 counterexample: on a session whose `start()` has already spawned one
background thread, a second `start()` is not a no-op on the session's state:
it spawns a second thread. -/
theorem c7_counterexample :
    (WebsocketClient.start (WebsocketClient.start ⟨false, 0⟩)).threadsStarted = 2 ∧
    WebsocketClient.start (WebsocketClient.start ⟨false, 0⟩)
      ≠ WebsocketClient.start ⟨false, 0⟩ := by
  constructor
  · rfl
  · decide

/-- C7 amended: `start()` unconditionally clears the `stop` flag and spawns
one more background thread, so a second call spawns a second concurrent
background context instead of being rejected or ignored. -/
theorem c7_start_spawns_again (s : Session) :
    WebsocketClient.start s = ⟨false, s.threadsStarted + 1⟩ ∧
    (WebsocketClient.start (WebsocketClient.start s)).threadsStarted
      = s.threadsStarted + 2 :=
  ⟨rfl, rfl⟩
